import Mathlib

/-
Verification of the Tab State Synchronization & Attention Detection Engine
of the streamdeck-iterm-tabs plugin. The definitions below are a shallow
embedding of the plugin source (src/plugin.ts): JavaScript numbers that hold
poll counts are modelled as Nat, the (possibly -1) notification window end
and the AppleScript-parsed active index as Int, JS `Map`s as functions into
Option, the JS `Set` of flagged tabs as a `Finset Nat`, and file/process IO
as explicit parameters (the read result and the current clock are inputs).
-/

namespace ITermTabs

/-- Boolean test that `needle` is a prefix of the second list (JS `startsWith`). -/
def listPrefixOf : List Char → List Char → Bool
  | [], _ => true
  | _ :: _, [] => false
  | a :: as, b :: bs => a == b && listPrefixOf as bs

/-- Boolean substring test on char lists (JS `String.prototype.includes`). -/
def containsSub (hay needle : List Char) : Bool :=
  hay.tails.any (fun t => listPrefixOf needle t)

/-- ASCII lowercasing of a char list (JS `toLowerCase` on the ASCII range). -/
def toLowerL (l : List Char) : List Char := l.map Char.toLower

/-- Whitespace class used by the source's regexes and `trim` (JS `\s`, ASCII part). -/
def jsWs (c : Char) : Bool :=
  c == ' ' || c == '\t' || c == '\n' || c == '\r' || c == '\x0b' || c == '\x0c'

/-- JS `String.prototype.trim` on a char list. -/
def jsTrim (l : List Char) : List Char :=
  ((l.dropWhile jsWs).reverse.dropWhile jsWs).reverse

/-- Remove one leading dash (the source's `replace` of a single leading `-`). -/
def stripDash : List Char → List Char
  | '-' :: rest => rest
  | l => l

def openParen : Char := '('

def closeParen : Char := ')'

/-- Result of `parseTabName` in the source: the tab's display name and the
trailing parenthetical process name. -/
structure ParsedName where
  displayName : String
  process : String
deriving DecidableEq, Repr

/-- Tail matcher for the source regex `^(.+?)\s*\(([^)]+)\)\s*$` once group 1 has
been fixed: skip whitespace, require an opening paren, take the non-paren inner
group (which must be nonempty), require the closing paren and only whitespace
after it. Returns the inner group. -/
def matchTail (rest : List Char) : Option (List Char) :=
  match rest.dropWhile jsWs with
  | c :: r2 =>
    if c == openParen then
      let inner := r2.takeWhile (fun d => !(d == closeParen))
      match r2.dropWhile (fun d => !(d == closeParen)) with
      | d :: r4 =>
        if d == closeParen && !inner.isEmpty && r4.all jsWs then some inner else none
      | [] => none
    else none
  | [] => none

/-- Lazy scan for the source regex `^(.+?)\s*\(([^)]+)\)\s*$`: group 1 (`.+?`)
grows one char at a time (never across a line terminator, which `.` cannot
match) and the first position where the tail matches wins, exactly the lazy
semantics of `.+?`. Returns (group 1, group 2) on success. -/
def scanGroups : List Char → List Char → Option (List Char × List Char)
  | _, [] => none
  | acc, c :: rest =>
    if c == '\n' || c == '\r' then none
    else
      match matchTail rest with
      | some inner => some (acc ++ [c], inner)
      | none => scanGroups (acc ++ [c]) rest

/-- `parseTabName` from the source: split a tab name of the form
`name (process)` into display name and process, both trimmed; a name without
a parenthetical suffix keeps the full name and has an empty process. -/
def parseTabName (fullName : String) : ParsedName :=
  match scanGroups [] fullName.toList with
  | some (g1, g2) => ⟨(jsTrim g1).asString, (jsTrim g2).asString⟩
  | none => ⟨fullName, ("")⟩

/-- `matchesProject` from the source: case-insensitive substring test of the
project hint against the parsed display name. -/
def matchesProject (tabFullName project : String) : Bool :=
  containsSub (toLowerL (parseTabName tabFullName).displayName.toList)
    (toLowerL project.toList)

/-- `detectProgramFromName` from the source: title-based fallback classifier,
an ordered first-match-wins chain on the lowercased process name with one
leading dash removed. -/
def detectProgramFromName (procName : String) : String :=
  let p := stripDash (toLowerL procName.toList)
  if containsSub p (("codex").toList) then ("codex")
  else if containsSub p (("claude").toList) then ("claude")
  else if containsSub p (("python").toList) then ("python")
  else if containsSub p (("node").toList) || containsSub p (("npm").toList)
      || containsSub p (("npx").toList) then ("node")
  else if containsSub p (("ssh").toList) then ("ssh")
  else if containsSub p (("vim").toList) || containsSub p (("nvim").toList) then ("vim")
  else if containsSub p (("zsh").toList) || containsSub p (("bash").toList)
      || containsSub p (("fish").toList) then ("shell")
  else ("other")

/-- The per-tty classification chain from `matchTtyPrograms` in the source:
the foreground command lines of one tty are joined with spaces, lowercased,
and tested against the ordered rule list (specific tools before anything
else); `none` means no rule matched and the title fallback applies. -/
def classifyCombined (cmds : List String) : Option String :=
  let combined := toLowerL (String.intercalate (" ") cmds).toList
  if containsSub combined (("claude").toList)
      || containsSub combined ((".local/share/claude/").toList) then some ("claude")
  else if containsSub combined (("codex").toList) then some ("codex")
  else if containsSub combined (("ssh ").toList) then some ("ssh")
  else if containsSub combined (("vim").toList)
      || containsSub combined (("nvim").toList) then some ("vim")
  else none

/-- The parsed shape of the correlation side-channel file: a JSON record whose
`project` and `timestamp` fields may each be absent. -/
structure EventData where
  project : Option String
  timestamp : Option Int
deriving DecidableEq, Repr

/-- `readNotificationEvent` from the source, with the IO made explicit:
`readResult` is `none` when the file is missing or unreadable, `some none`
when its content fails to parse, and `some (some d)` for a parsed record;
`now` is the clock. The record is returned only when `project` and
`timestamp` are truthy and the timestamp is strictly fresher than 5000 ms. -/
def readNotificationEvent (readResult : Option (Option EventData)) (now : Int) :
    Option EventData :=
  match readResult with
  | some (some d) =>
    match d.project, d.timestamp with
    | some p, some ts =>
      if p = ("") then none
      else if ts = 0 then none
      else if now - ts < 5000 then some d
      else none
    | _, _ => none
  | _ => none

/-- The one-shot notification signal written by the log-stream handler and
consumed by `updateAttention`. -/
structure SignalState where
  notificationPending : Bool
  notificationProject : Option String
deriving DecidableEq, Repr

/-- The per-line body of the log-stream `data` handler in `startLogStream`:
skip `Filtering`/`Timestamp`/blank lines, skip when no matchers are
configured, skip lines matching no matcher, and only when no signal is
already pending read the side-channel file and raise the signal. -/
def handleLogLine (matchers : List String) (readResult : Option (Option EventData))
    (now : Int) (line : List Char) (st : SignalState) : SignalState :=
  if listPrefixOf (("Filtering").toList) line || listPrefixOf (("Timestamp").toList) line
      || (jsTrim line).isEmpty then st
  else if matchers.isEmpty then st
  else if !(matchers.any (fun m => containsSub line m.toList)) then st
  else if st.notificationPending then st
  else ⟨true, (readNotificationEvent readResult now).bind (fun e => e.project)⟩

/-- The `TabInfo` snapshot assembled by `getTabInfo` plus the frontmost flag. -/
structure TabInfo where
  names : List String
  activeIndex : Int
  prompts : List Bool
  processing : List Bool
  frontmost : Bool
  ttys : List String

/-- The engine's process-lifetime mutable state: the flagged set, the poll
counter, the three per-tab tracking maps, and the notification signal and
window, exactly the module-level variables of the source. -/
structure AttentionState where
  attentionTabs : Finset Nat
  pollCount : Nat
  prevPromptState : Nat → Option Bool
  lastProcessingPoll : Nat → Option Nat
  prevProcessingState : Nat → Option Bool
  notificationPending : Bool
  notificationProject : Option String
  notificationWindowEnd : Int

/-- The initial values of the module-level state in the source. -/
def initialAttentionState : AttentionState :=
  ⟨∅, 0, fun _ => none, fun _ => none, fun _ => none, false, none, -1⟩

/-- `visibleTab` as computed at the top of `updateAttention`: the active index
when the terminal app is frontmost, else the sentinel -1. -/
def visibleTabOf (info : TabInfo) : Int :=
  if info.frontmost then info.activeIndex else -1

/-- The condition under which the loop body of `applyTimingHeuristic` flags
tab `i + 1`: not the visible tab, neither at a prompt nor processing, and
last observed processing at most 3 polls ago. -/
def timingCond (info : TabInfo) (vt : Int) (st : AttentionState) (i : Nat) : Bool :=
  if ((i + 1 : Nat) : Int) = vt then false
  else if info.prompts.getD i false || info.processing.getD i false then false
  else
    match st.lastProcessingPoll (i + 1) with
    | some lastActive => decide ((st.pollCount : Int) - (lastActive : Int) ≤ 3)
    | none => false

/-- One iteration of the loop in `applyTimingHeuristic`. -/
def timingStep (info : TabInfo) (vt : Int) (st : AttentionState) (i : Nat) :
    AttentionState :=
  if timingCond info vt st i then
    { st with attentionTabs := insert (i + 1) st.attentionTabs }
  else st

/-- `applyTimingHeuristic` from the source: open the notification window at
`pollCount + 4` and flag every non-visible tab that is idle now but was
processing within the last 3 polls. -/
def applyTimingHeuristic (info : TabInfo) (vt : Int) (st : AttentionState) :
    AttentionState :=
  (List.range info.names.length).foldl (timingStep info vt)
    { st with notificationWindowEnd := (st.pollCount : Int) + 4 }

/-- The condition under which the project-match loop in `updateAttention`
flags tab `i + 1`: not the visible tab and a display-name match. -/
def projCond (info : TabInfo) (vt : Int) (proj : String) (i : Nat) : Bool :=
  if ((i + 1 : Nat) : Int) = vt then false
  else matchesProject (info.names.getD i ("")) proj

/-- One iteration of the project-match loop in `updateAttention`. -/
def projectStep (info : TabInfo) (vt : Int) (proj : String) (st : AttentionState)
    (i : Nat) : AttentionState :=
  if projCond info vt proj i then
    { st with attentionTabs := insert (i + 1) st.attentionTabs }
  else st

/-- The `matched` flag computed by the project-match loop in `updateAttention`. -/
def projectMatched (info : TabInfo) (vt : Int) (proj : String) : Bool :=
  (List.range info.names.length).any (projCond info vt proj)

/-- The signal-consumption block at the top of `updateAttention`: when a
signal is pending, clear it; with a truthy project hint run the
project-match loop and fall back to the timing heuristic only when nothing
matched, then clear the hint; with no truthy hint run the timing heuristic. -/
def consumeNotification (info : TabInfo) (vt : Int) (st : AttentionState) :
    AttentionState :=
  if st.notificationPending then
    let st1 := { st with notificationPending := false }
    match st.notificationProject with
    | some proj =>
      if proj = ("") then applyTimingHeuristic info vt st1
      else
        let stM := (List.range info.names.length).foldl (projectStep info vt proj) st1
        let stM2 := if projectMatched info vt proj then stM
          else applyTimingHeuristic info vt stM
        { stM2 with notificationProject := none }
    | none => applyTimingHeuristic info vt st1
  else st

/-- The flagged set produced by one iteration of the main per-tab loop of
`updateAttention` for tab `i + 1`: the visible tab is removed; otherwise,
after the very first poll and only inside the notification window, a rising
prompt edge or a falling processing edge inserts the tab. -/
def tabStepAttn (info : TabInfo) (vt : Int) (inW : Bool) (st : AttentionState)
    (i : Nat) : Finset Nat :=
  let atPrompt := info.prompts.getD i false
  let wasAtPrompt := (st.prevPromptState (i + 1)).getD false
  let isProcessing := info.processing.getD i false
  let wasProcessing := (st.prevProcessingState (i + 1)).getD false
  if ((i + 1 : Nat) : Int) = vt then st.attentionTabs.erase (i + 1)
  else if 0 < st.pollCount then
    let a1 := if inW && atPrompt && !wasAtPrompt then insert (i + 1) st.attentionTabs
      else st.attentionTabs
    if inW && wasProcessing && !isProcessing then insert (i + 1) a1 else a1
  else st.attentionTabs

/-- One iteration of the main per-tab loop of `updateAttention`: the flag
change of `tabStepAttn` plus the unconditional bookkeeping writes of
`lastProcessingPoll` (only while processing), `prevPromptState` and
`prevProcessingState` at this tab's key. -/
def tabStep (info : TabInfo) (vt : Int) (inW : Bool) (st : AttentionState)
    (i : Nat) : AttentionState :=
  { attentionTabs := tabStepAttn info vt inW st i
    pollCount := st.pollCount
    prevPromptState := fun k =>
      if k = i + 1 then some (info.prompts.getD i false) else st.prevPromptState k
    lastProcessingPoll := fun k =>
      if k = i + 1 ∧ info.processing.getD i false = true then some st.pollCount
      else st.lastProcessingPoll k
    prevProcessingState := fun k =>
      if k = i + 1 then some (info.processing.getD i false) else st.prevProcessingState k
    notificationPending := st.notificationPending
    notificationProject := st.notificationProject
    notificationWindowEnd := st.notificationWindowEnd }

/-- `updateAttention` from the source: compute the visible tab, consume any
pending signal, compute `inNotificationWindow`, run the per-tab loop over
all tabs of the snapshot, and finally increment the poll counter. -/
def updateAttention (info : TabInfo) (st : AttentionState) : AttentionState :=
  let vt := visibleTabOf info
  let stN := consumeNotification info vt st
  let inW := decide ((stN.pollCount : Int) ≤ stN.notificationWindowEnd)
  let stL := (List.range info.names.length).foldl (tabStep info vt inW) stN
  { stL with pollCount := stL.pollCount + 1 }

/-- What the publish step of `pollTabs` sends for one tracked action: either
the rendered tab tuple or the explicit empty marker. -/
inductive PublishedState where
  | tab (displayName program : String) (isActive hasAttention : Bool)
  | empty
deriving DecidableEq, Repr

/-- The per-action publish step of `pollTabs`: a tracked index within the tab
list renders that tab's tuple (tty-derived program with title fallback,
active and attention flags); an index beyond the list publishes the empty
marker. `none` would mean an out-of-bounds access of the name list. -/
def publishTab (names : List String) (activeIndex : Int) (attn : Finset Nat)
    (ttyProgram : Option String) (idx : Nat) : Option PublishedState :=
  if idx ≤ names.length then
    match names[idx - 1]? with
    | some nm =>
      let parsed := parseTabName nm
      some (PublishedState.tab parsed.displayName
        (ttyProgram.getD (detectProgramFromName parsed.process))
        (decide ((idx : Int) = activeIndex)) (decide (idx ∈ attn)))
    | none => none
  else some PublishedState.empty

/-- The attention effect of `ITermTabAction.onKeyDown`: an untracked action
does nothing; a tracked one removes its tab index from the flagged set and
then issues the switch command for that index (second component). The new
flagged set is computed before and independently of the switch command's
outcome. -/
def onKeyDownAttn (tracked : Option Nat) (attn : Finset Nat) :
    Finset Nat × Option Nat :=
  match tracked with
  | none => (attn, none)
  | some idx => (attn.erase idx, some idx)

/-! Basic preservation lemmas for the per-tab loop of `updateAttention`. -/

section TabStepLemmas

variable (info : TabInfo) (vt : Int) (inW : Bool)

lemma tabStep_pollCount (st : AttentionState) (i : Nat) :
    (tabStep info vt inW st i).pollCount = st.pollCount := rfl

lemma tabStep_pending (st : AttentionState) (i : Nat) :
    (tabStep info vt inW st i).notificationPending = st.notificationPending := rfl

lemma tabStep_windowEnd (st : AttentionState) (i : Nat) :
    (tabStep info vt inW st i).notificationWindowEnd = st.notificationWindowEnd := rfl

lemma tabStep_prevPrompt_ne (st : AttentionState) (i k : Nat) (h : k ≠ i + 1) :
    (tabStep info vt inW st i).prevPromptState k = st.prevPromptState k := by
  simp [tabStep, h]

lemma tabStep_prevProc_ne (st : AttentionState) (i k : Nat) (h : k ≠ i + 1) :
    (tabStep info vt inW st i).prevProcessingState k = st.prevProcessingState k := by
  simp [tabStep, h]

lemma tabStep_prevPrompt_self (st : AttentionState) (i : Nat) :
    (tabStep info vt inW st i).prevPromptState (i + 1)
      = some (info.prompts.getD i false) := by
  simp [tabStep]

lemma tabStep_prevProc_self (st : AttentionState) (i : Nat) :
    (tabStep info vt inW st i).prevProcessingState (i + 1)
      = some (info.processing.getD i false) := by
  simp [tabStep]

lemma tabStep_attn_ne (st : AttentionState) (i t : Nat) (h : t ≠ i + 1) :
    (t ∈ (tabStep info vt inW st i).attentionTabs) ↔ t ∈ st.attentionTabs := by
  show t ∈ tabStepAttn info vt inW st i ↔ t ∈ st.attentionTabs
  simp only [tabStepAttn]
  split_ifs <;> simp [Finset.mem_erase, Finset.mem_insert, h]

end TabStepLemmas

/-- The membership outcome for tab `t` of its own iteration of the per-tab
loop, in terms of the state the loop started from: the visible tab ends up
removed, any other tab ends up present iff it was present before or (after
the first poll, inside the window) one of the two edge rules fired. -/
def stepPost (info : TabInfo) (vt : Int) (inW : Bool) (st : AttentionState)
    (t : Nat) : Prop :=
  ((t : Int) ≠ vt) ∧ (t ∈ st.attentionTabs ∨ (0 < st.pollCount ∧ inW = true ∧
    ((info.prompts.getD (t - 1) false = true
        ∧ (st.prevPromptState t).getD false = false) ∨
     ((st.prevProcessingState t).getD false = true
        ∧ info.processing.getD (t - 1) false = false))))

section TabStepSelf

variable (info : TabInfo) (vt : Int) (inW : Bool)

lemma tabStep_attn_self (st : AttentionState) (i : Nat) :
    ((i + 1) ∈ (tabStep info vt inW st i).attentionTabs)
      ↔ stepPost info vt inW st (i + 1) := by
  show (i + 1) ∈ tabStepAttn info vt inW st i ↔ stepPost info vt inW st (i + 1)
  simp only [tabStepAttn, stepPost, Nat.add_sub_cancel]
  split_ifs <;>
    simp_all [Finset.mem_erase, Finset.mem_insert, Bool.and_eq_true,
      Bool.not_eq_true']

end TabStepSelf

/-! Lemmas about the whole per-tab loop (a fold of `tabStep` over the tab
indices), leading to a membership characterisation over `List.range`. -/

section TabFoldLemmas

variable (info : TabInfo) (vt : Int) (inW : Bool)

lemma foldl_tabStep_pollCount (l : List Nat) (st : AttentionState) :
    (l.foldl (tabStep info vt inW) st).pollCount = st.pollCount := by
  induction l generalizing st with
  | nil => rfl
  | cons j l ih => simpa [List.foldl_cons] using ih (tabStep info vt inW st j)

lemma foldl_tabStep_pending (l : List Nat) (st : AttentionState) :
    (l.foldl (tabStep info vt inW) st).notificationPending
      = st.notificationPending := by
  induction l generalizing st with
  | nil => rfl
  | cons j l ih => simpa [List.foldl_cons] using ih (tabStep info vt inW st j)

lemma foldl_tabStep_prevPrompt_ne (l : List Nat) (st : AttentionState) (k : Nat)
    (h : ∀ j ∈ l, k ≠ j + 1) :
    (l.foldl (tabStep info vt inW) st).prevPromptState k = st.prevPromptState k := by
  induction l generalizing st with
  | nil => rfl
  | cons j l ih =>
    rw [List.foldl_cons, ih _ (fun j' hj' => h j' (List.mem_cons_of_mem _ hj')),
      tabStep_prevPrompt_ne _ _ _ _ _ _ (h j (List.mem_cons_self _ _))]

lemma foldl_tabStep_prevProc_ne (l : List Nat) (st : AttentionState) (k : Nat)
    (h : ∀ j ∈ l, k ≠ j + 1) :
    (l.foldl (tabStep info vt inW) st).prevProcessingState k
      = st.prevProcessingState k := by
  induction l generalizing st with
  | nil => rfl
  | cons j l ih =>
    rw [List.foldl_cons, ih _ (fun j' hj' => h j' (List.mem_cons_of_mem _ hj')),
      tabStep_prevProc_ne _ _ _ _ _ _ (h j (List.mem_cons_self _ _))]

lemma foldl_tabStep_attn_ne (l : List Nat) (st : AttentionState) (t : Nat)
    (h : ∀ j ∈ l, t ≠ j + 1) :
    (t ∈ (l.foldl (tabStep info vt inW) st).attentionTabs)
      ↔ t ∈ st.attentionTabs := by
  induction l generalizing st with
  | nil => exact Iff.rfl
  | cons j l ih =>
    rw [List.foldl_cons, ih _ (fun j' hj' => h j' (List.mem_cons_of_mem _ hj')),
      tabStep_attn_ne _ _ _ _ _ _ (h j (List.mem_cons_self _ _))]

lemma foldl_range_prevPrompt_self (n : Nat) (st : AttentionState) (j : Nat)
    (hj : j < n) :
    ((List.range n).foldl (tabStep info vt inW) st).prevPromptState (j + 1)
      = some (info.prompts.getD j false) := by
  induction n with
  | zero => omega
  | succ n ih =>
    rw [List.range_succ, List.foldl_append, List.foldl_cons, List.foldl_nil]
    rcases Nat.lt_or_ge j n with hlt | hge
    · rw [tabStep_prevPrompt_ne _ _ _ _ _ _ (by omega), ih hlt]
    · have hj' : j = n := by omega
      subst hj'
      exact tabStep_prevPrompt_self _ _ _ _ _

lemma foldl_range_prevProc_self (n : Nat) (st : AttentionState) (j : Nat)
    (hj : j < n) :
    ((List.range n).foldl (tabStep info vt inW) st).prevProcessingState (j + 1)
      = some (info.processing.getD j false) := by
  induction n with
  | zero => omega
  | succ n ih =>
    rw [List.range_succ, List.foldl_append, List.foldl_cons, List.foldl_nil]
    rcases Nat.lt_or_ge j n with hlt | hge
    · rw [tabStep_prevProc_ne _ _ _ _ _ _ (by omega), ih hlt]
    · have hj' : j = n := by omega
      subst hj'
      exact tabStep_prevProc_self _ _ _ _ _

lemma foldl_range_attn_mem (n : Nat) (st : AttentionState) (t : Nat)
    (ht : 1 ≤ t) :
    (t ∈ ((List.range n).foldl (tabStep info vt inW) st).attentionTabs)
      ↔ (if t ≤ n then stepPost info vt inW st t else t ∈ st.attentionTabs) := by
  induction n with
  | zero =>
    simp only [List.range_zero, List.foldl_nil]
    rw [if_neg (by omega)]
  | succ n ih =>
    rw [List.range_succ, List.foldl_append, List.foldl_cons, List.foldl_nil]
    rcases Nat.lt_trichotomy t (n + 1) with hlt | heq | hgt
    · rw [tabStep_attn_ne _ _ _ _ _ _ (by omega), ih, if_pos (by omega),
        if_pos (by omega)]
    · subst heq
      have hne : ∀ j ∈ List.range n, (n + 1 : Nat) ≠ j + 1 := by
        intro j hj
        have := List.mem_range.mp hj
        omega
      have hmem := foldl_tabStep_attn_ne info vt inW (List.range n) st (n + 1) hne
      have hpc := foldl_tabStep_pollCount info vt inW (List.range n) st
      have hpp := foldl_tabStep_prevPrompt_ne info vt inW (List.range n) st (n + 1) hne
      have hppc := foldl_tabStep_prevProc_ne info vt inW (List.range n) st (n + 1) hne
      rw [tabStep_attn_self, if_pos (by omega)]
      unfold stepPost
      rw [hmem, hpc, hpp, hppc]
    · have hne : ∀ j ∈ List.range (n + 1), t ≠ j + 1 := by
        intro j hj
        have := List.mem_range.mp hj
        omega
      have hstep := tabStep_attn_ne info vt inW
        ((List.range n).foldl (tabStep info vt inW) st) n t (hne n (by simp))
      have hfold := foldl_tabStep_attn_ne info vt inW (List.range n) st t
        (fun j hj => hne j (by simp only [List.mem_range] at hj ⊢; omega))
      rw [hstep, hfold, if_neg (show ¬ t ≤ n + 1 by omega)]

end TabFoldLemmas

/-! Lemmas about the timing heuristic and the project-match loop. -/

section TimingLemmas

variable (info : TabInfo) (vt : Int)

lemma timingStep_pollCount (st : AttentionState) (i : Nat) :
    (timingStep info vt st i).pollCount = st.pollCount := by
  unfold timingStep; split <;> rfl

lemma timingStep_lastProc (st : AttentionState) (i : Nat) :
    (timingStep info vt st i).lastProcessingPoll = st.lastProcessingPoll := by
  unfold timingStep; split <;> rfl

lemma timingStep_windowEnd (st : AttentionState) (i : Nat) :
    (timingStep info vt st i).notificationWindowEnd = st.notificationWindowEnd := by
  unfold timingStep; split <;> rfl

lemma timingStep_pending (st : AttentionState) (i : Nat) :
    (timingStep info vt st i).notificationPending = st.notificationPending := by
  unfold timingStep; split <;> rfl

lemma timingStep_project (st : AttentionState) (i : Nat) :
    (timingStep info vt st i).notificationProject = st.notificationProject := by
  unfold timingStep; split <;> rfl

lemma timingStep_prevPrompt (st : AttentionState) (i : Nat) :
    (timingStep info vt st i).prevPromptState = st.prevPromptState := by
  unfold timingStep; split <;> rfl

lemma timingStep_prevProc (st : AttentionState) (i : Nat) :
    (timingStep info vt st i).prevProcessingState = st.prevProcessingState := by
  unfold timingStep; split <;> rfl

lemma timingCond_step (st : AttentionState) (j i : Nat) :
    timingCond info vt (timingStep info vt st j) i = timingCond info vt st i := by
  unfold timingCond
  rw [timingStep_lastProc, timingStep_pollCount]

lemma timing_foldl_mem (l : List Nat) (st : AttentionState) (t : Nat) :
    (t ∈ (l.foldl (timingStep info vt) st).attentionTabs)
      ↔ (t ∈ st.attentionTabs
          ∨ ∃ i ∈ l, t = i + 1 ∧ timingCond info vt st i = true) := by
  induction l generalizing st with
  | nil => simp
  | cons j l ih =>
    rw [List.foldl_cons, ih]
    simp only [timingCond_step, List.mem_cons]
    constructor
    · rintro (hmem | ⟨i, hi, rfl, hc⟩)
      · unfold timingStep at hmem
        split at hmem
        · rcases Finset.mem_insert.mp hmem with rfl | hmem
          · exact Or.inr ⟨j, Or.inl rfl, rfl, by assumption⟩
          · exact Or.inl hmem
        · exact Or.inl hmem
      · exact Or.inr ⟨i, Or.inr hi, rfl, hc⟩
    · rintro (hmem | ⟨i, hi | hi, rfl, hc⟩)
      · left
        unfold timingStep
        split
        · exact Finset.mem_insert_of_mem hmem
        · exact hmem
      · subst hi
        left
        unfold timingStep
        rw [if_pos hc]
        exact Finset.mem_insert_self _ _
      · exact Or.inr ⟨i, hi, rfl, hc⟩

lemma timing_foldl_pollCount (l : List Nat) (st : AttentionState) :
    (l.foldl (timingStep info vt) st).pollCount = st.pollCount := by
  induction l generalizing st with
  | nil => rfl
  | cons j l ih =>
    rw [List.foldl_cons, ih, timingStep_pollCount]

lemma timing_foldl_windowEnd (l : List Nat) (st : AttentionState) :
    (l.foldl (timingStep info vt) st).notificationWindowEnd
      = st.notificationWindowEnd := by
  induction l generalizing st with
  | nil => rfl
  | cons j l ih =>
    rw [List.foldl_cons, ih, timingStep_windowEnd]

lemma applyTimingHeuristic_windowEnd (st : AttentionState) :
    (applyTimingHeuristic info vt st).notificationWindowEnd
      = (st.pollCount : Int) + 4 := by
  unfold applyTimingHeuristic
  rw [timing_foldl_windowEnd]

lemma applyTimingHeuristic_pollCount (st : AttentionState) :
    (applyTimingHeuristic info vt st).pollCount = st.pollCount := by
  unfold applyTimingHeuristic
  rw [timing_foldl_pollCount]

lemma timingCond_true_iff (st : AttentionState) (i : Nat) :
    timingCond info vt st i = true
      ↔ (((i + 1 : Nat) : Int) ≠ vt ∧ info.prompts.getD i false = false
          ∧ info.processing.getD i false = false
          ∧ ∃ p, st.lastProcessingPoll (i + 1) = some p
              ∧ (st.pollCount : Int) - (p : Int) ≤ 3) := by
  unfold timingCond
  split_ifs with h1 h2
  · constructor
    · intro h; exact absurd h (by simp)
    · rintro ⟨hne, -⟩; exact absurd h1 hne
  · constructor
    · intro h; exact absurd h (by simp)
    · rintro ⟨-, hp, hpr, -⟩
      rcases Bool.or_eq_true _ _ |>.mp h2 with hb | hb
      · rw [hp] at hb; exact absurd hb (by simp)
      · rw [hpr] at hb; exact absurd hb (by simp)
  · have h2' : (info.prompts.getD i false || info.processing.getD i false) = false :=
      Bool.eq_false_iff.mpr h2
    rw [Bool.or_eq_false_iff] at h2'
    cases hm : st.lastProcessingPoll (i + 1) with
    | none =>
      constructor
      · intro h; exact absurd h (by simp)
      · rintro ⟨-, -, -, p, hp, -⟩; exact Option.noConfusion hp
    | some la =>
      simp only [decide_eq_true_eq]
      constructor
      · intro h
        exact ⟨h1, h2'.1, h2'.2, la, rfl, h⟩
      · rintro ⟨-, -, -, p, hp, hle⟩
        cases hp
        exact hle

end TimingLemmas

section ProjectLemmas

variable (info : TabInfo) (vt : Int) (proj : String)

lemma projectStep_pollCount (st : AttentionState) (i : Nat) :
    (projectStep info vt proj st i).pollCount = st.pollCount := by
  unfold projectStep; split <;> rfl

lemma projectStep_windowEnd (st : AttentionState) (i : Nat) :
    (projectStep info vt proj st i).notificationWindowEnd
      = st.notificationWindowEnd := by
  unfold projectStep; split <;> rfl

lemma proj_foldl_mem (l : List Nat) (st : AttentionState) (t : Nat) :
    (t ∈ (l.foldl (projectStep info vt proj) st).attentionTabs)
      ↔ (t ∈ st.attentionTabs
          ∨ ∃ i ∈ l, t = i + 1 ∧ projCond info vt proj i = true) := by
  induction l generalizing st with
  | nil => simp
  | cons j l ih =>
    rw [List.foldl_cons, ih]
    simp only [List.mem_cons]
    constructor
    · rintro (hmem | ⟨i, hi, rfl, hc⟩)
      · unfold projectStep at hmem
        split at hmem
        · rcases Finset.mem_insert.mp hmem with rfl | hmem
          · exact Or.inr ⟨j, Or.inl rfl, rfl, by assumption⟩
          · exact Or.inl hmem
        · exact Or.inl hmem
      · exact Or.inr ⟨i, Or.inr hi, rfl, hc⟩
    · rintro (hmem | ⟨i, hi | hi, rfl, hc⟩)
      · left
        unfold projectStep
        split
        · exact Finset.mem_insert_of_mem hmem
        · exact hmem
      · subst hi
        left
        unfold projectStep
        rw [if_pos hc]
        exact Finset.mem_insert_self _ _
      · exact Or.inr ⟨i, hi, rfl, hc⟩

lemma proj_foldl_pollCount (l : List Nat) (st : AttentionState) :
    (l.foldl (projectStep info vt proj) st).pollCount = st.pollCount := by
  induction l generalizing st with
  | nil => rfl
  | cons j l ih =>
    rw [List.foldl_cons, ih, projectStep_pollCount]

lemma proj_foldl_windowEnd (l : List Nat) (st : AttentionState) :
    (l.foldl (projectStep info vt proj) st).notificationWindowEnd
      = st.notificationWindowEnd := by
  induction l generalizing st with
  | nil => rfl
  | cons j l ih =>
    rw [List.foldl_cons, ih, projectStep_windowEnd]

lemma projCond_true_iff (i : Nat) :
    projCond info vt proj i = true
      ↔ (((i + 1 : Nat) : Int) ≠ vt
          ∧ matchesProject (info.names.getD i ("")) proj = true) := by
  unfold projCond
  split_ifs with h1
  · constructor
    · intro h; exact absurd h (by simp)
    · rintro ⟨hne, -⟩; exact absurd h1 hne
  · constructor
    · intro h; exact ⟨h1, h⟩
    · rintro ⟨-, h⟩; exact h

end ProjectLemmas

section ConsumeLemmas

variable (info : TabInfo) (vt : Int)

lemma consumeNotification_not_pending (st : AttentionState)
    (hp : st.notificationPending = false) :
    consumeNotification info vt st = st := by
  unfold consumeNotification
  rw [hp]
  simp

lemma consumeNotification_pollCount (st : AttentionState) :
    (consumeNotification info vt st).pollCount = st.pollCount := by
  unfold consumeNotification
  split
  · cases hp : st.notificationProject with
    | none => exact applyTimingHeuristic_pollCount _ _ _
    | some proj =>
      dsimp only
      split_ifs with h1 h2
      · exact applyTimingHeuristic_pollCount _ _ _
      · exact proj_foldl_pollCount _ _ _ _ _
      · rw [applyTimingHeuristic_pollCount, proj_foldl_pollCount]
  · rfl

lemma updateAttention_pollCount (st : AttentionState) :
    (updateAttention info st).pollCount = st.pollCount + 1 := by
  unfold updateAttention
  dsimp only
  rw [foldl_tabStep_pollCount, consumeNotification_pollCount]

end ConsumeLemmas

/-- Core helper: after `updateAttention`, any tab index that actually denotes
the visible tab (at least 1 and at most the number of tabs, equal to the
visible-tab value) is absent from the flagged set. -/
lemma visible_not_mem_update (info : TabInfo) (st : AttentionState) (t : Nat)
    (h1 : 1 ≤ t) (h2 : t ≤ info.names.length)
    (h3 : ((t : Nat) : Int) = visibleTabOf info) :
    t ∉ (updateAttention info st).attentionTabs := by
  unfold updateAttention
  dsimp only
  rw [foldl_range_attn_mem _ _ _ _ _ _ h1, if_pos h2]
  intro hpost
  exact hpost.1 h3

/-! Claim theorems. -/

/-- C1 counterexample: the claim that the visible tab (the active index while
frontmost) is never flagged after `updateAttention` "regardless of any other
input" is false when the active index exceeds the length of the (empty-name
filtered) tab name list: with one tab name, active index 2, frontmost, and
tab 2 already flagged, tab 2 is still flagged after the call. -/
theorem c1_counterexample :
    (⟨[("a")], 2, [], [], true, []⟩ : TabInfo).frontmost = true
      ∧ (⟨[("a")], 2, [], [], true, []⟩ : TabInfo).activeIndex = 2
      ∧ (2 : Nat) ∈ (updateAttention (⟨[("a")], 2, [], [], true, []⟩ : TabInfo)
          (⟨{2}, 5, fun _ => none, fun _ => none, fun _ => none, false, none, -1⟩ :
            AttentionState)).attentionTabs := by
  refine ⟨rfl, rfl, ?_⟩
  decide

/-- C1, amended: whenever the snapshot's active index actually denotes one of
the snapshot's tabs (it is at least 1 and at most the number of tab names)
and the terminal app is frontmost, the visible tab is not in the flagged set
immediately after `updateAttention` returns, for every attention state —
visibility clears attention unconditionally, including against flags the
notification-window rules would add in the same call. -/
theorem c1_visible_cleared (info : TabInfo) (st : AttentionState)
    (hf : info.frontmost = true) (h1 : 1 ≤ info.activeIndex)
    (h2 : info.activeIndex ≤ (info.names.length : Int)) :
    info.activeIndex.toNat ∉ (updateAttention info st).attentionTabs := by
  have hnn : (0 : Int) ≤ info.activeIndex := by omega
  have hcast : ((info.activeIndex.toNat : Nat) : Int) = info.activeIndex :=
    Int.toNat_of_nonneg hnn
  apply visible_not_mem_update info st info.activeIndex.toNat
  · omega
  · have := Int.toNat_le_toNat h2
    simpa using this
  · rw [hcast]
    unfold visibleTabOf
    rw [if_pos hf]

/-- C1 witness: the amended theorem applied at a concrete snapshot and state. -/
theorem c1_witness :
    ((⟨[("a"), ("b")], 2, [], [], true, []⟩ : TabInfo).activeIndex.toNat)
      ∉ (updateAttention (⟨[("a"), ("b")], 2, [], [], true, []⟩ : TabInfo)
          (⟨{2}, 5, fun _ => none, fun _ => none, fun _ => none, false, none, 9⟩ :
            AttentionState)).attentionTabs :=
  c1_visible_cleared _ _ rfl (by decide) (by decide)

/-- C2: for a poll that has a previous poll to compare against
(`pollCount ≥ 1`), with no pending signal, the two edge-based flagging rules
add tab `i + 1` (not previously flagged) if and only if the tab is
non-visible, the current `pollCount` is at most `notificationWindowEnd`, and
a rising prompt edge or a falling processing edge occurred; and, whatever tab
is considered, once `pollCount` is strictly greater than `openedAtPoll + 4`
(the value `notificationWindowEnd` was set to when the window opened at poll
`openedAtPoll`), no edge-based flagging occurs at all. -/
theorem c2_edge_window_iff (info : TabInfo) (st : AttentionState) (i : Nat)
    (h1 : 1 ≤ st.pollCount) (h2 : st.notificationPending = false)
    (h3 : i < info.names.length) (h4 : (i + 1) ∉ st.attentionTabs) :
    (((i + 1) ∈ (updateAttention info st).attentionTabs)
      ↔ (((i + 1 : Nat) : Int) ≠ visibleTabOf info
          ∧ (st.pollCount : Int) ≤ st.notificationWindowEnd
          ∧ ((info.prompts.getD i false = true
                ∧ (st.prevPromptState (i + 1)).getD false = false)
              ∨ ((st.prevProcessingState (i + 1)).getD false = true
                ∧ info.processing.getD i false = false))))
    ∧ (∀ openedAtPoll : Int,
        st.notificationWindowEnd = openedAtPoll + 4
          → openedAtPoll + 4 < (st.pollCount : Int)
          → (i + 1) ∉ (updateAttention info st).attentionTabs) := by
  have hmem : ((i + 1) ∈ (updateAttention info st).attentionTabs)
      ↔ stepPost info (visibleTabOf info)
          (decide ((st.pollCount : Int) ≤ st.notificationWindowEnd)) st (i + 1) := by
    unfold updateAttention
    dsimp only
    rw [consumeNotification_not_pending _ _ _ h2,
      foldl_range_attn_mem _ _ _ _ _ _ (by omega), if_pos (by omega)]
  constructor
  · rw [hmem]
    unfold stepPost
    simp only [Nat.add_sub_cancel]
    constructor
    · rintro ⟨hne, hmem' | ⟨-, hw, hedge⟩⟩
      · exact absurd hmem' h4
      · exact ⟨hne, of_decide_eq_true hw, hedge⟩
    · rintro ⟨hne, hw, hedge⟩
      exact ⟨hne, Or.inr ⟨by omega, decide_eq_true hw, hedge⟩⟩
  · intro openedAtPoll hw hlt
    rw [hmem]
    rintro ⟨-, hmem' | ⟨-, hdec, -⟩⟩
    · exact absurd hmem' h4
    · rw [decide_eq_true_eq] at hdec
      omega

/-- C2 witness: the iff applied at a concrete snapshot (background tab with a
rising prompt edge inside an open window) shows the tab gets flagged. -/
theorem c2_witness :
    (1 : Nat) ∈ (updateAttention (⟨[("t1")], 0, [true], [], false, []⟩ : TabInfo)
      (⟨∅, 1, fun _ => none, fun _ => none, fun _ => none, false, none, 5⟩ :
        AttentionState)).attentionTabs :=
  ((c2_edge_window_iff (⟨[("t1")], 0, [true], [], false, []⟩ : TabInfo)
      (⟨∅, 1, fun _ => none, fun _ => none, fun _ => none, false, none, 5⟩ :
        AttentionState) 0 (by decide) rfl (by decide) (by decide)).1).mpr
    (by refine ⟨by decide, by decide, Or.inl ⟨by decide, by decide⟩⟩)

/-- C3: `applyTimingHeuristic` sets the detection window end to
`pollCount + 4`, and flags exactly those tabs of the snapshot that are
non-visible, currently neither at a shell prompt nor processing, and were
last observed processing at a poll `p` with `pollCount - p ≤ 3`; a tab with
no recorded processing poll is never flagged by this rule (there must exist
a recorded `p`), and no flag is ever removed. -/
theorem c3_timing_heuristic (info : TabInfo) (vt : Int) (st : AttentionState) :
    (applyTimingHeuristic info vt st).notificationWindowEnd
        = (st.pollCount : Int) + 4
      ∧ ∀ t : Nat, ((t ∈ (applyTimingHeuristic info vt st).attentionTabs)
          ↔ (t ∈ st.attentionTabs
              ∨ ∃ i, i < info.names.length ∧ t = i + 1
                  ∧ ((i + 1 : Nat) : Int) ≠ vt
                  ∧ info.prompts.getD i false = false
                  ∧ info.processing.getD i false = false
                  ∧ ∃ p, st.lastProcessingPoll (i + 1) = some p
                      ∧ (st.pollCount : Int) - (p : Int) ≤ 3)) := by
  constructor
  · exact applyTimingHeuristic_windowEnd _ _ _
  · intro t
    unfold applyTimingHeuristic
    rw [timing_foldl_mem]
    constructor
    · rintro (hmem | ⟨i, hi, rfl, hc⟩)
      · exact Or.inl hmem
      · rw [timingCond_true_iff] at hc
        exact Or.inr ⟨i, List.mem_range.mp hi, rfl, hc.1, hc.2.1, hc.2.2.1, hc.2.2.2⟩
    · rintro (hmem | ⟨i, hi, rfl, hne, hp, hpr, p, hlp, hle⟩)
      · exact Or.inl hmem
      · refine Or.inr ⟨i, List.mem_range.mpr hi, rfl, ?_⟩
        rw [timingCond_true_iff]
        exact ⟨hne, hp, hpr, p, hlp, hle⟩

/-- C4: when the consumed signal carries a (truthy) correlation hint and at
least one tab matches it, the signal-consumption block flags exactly the
non-visible tabs whose display name matches the hint case-insensitively
(every matching non-visible tab is flagged, nothing else changes), and the
timing heuristic is skipped: the detection window end is left untouched. -/
theorem c4_project_match (info : TabInfo) (vt : Int) (st : AttentionState)
    (proj : String) (hpend : st.notificationPending = true)
    (hproj : st.notificationProject = some proj) (hne : proj ≠ (""))
    (hm : projectMatched info vt proj = true) :
    (consumeNotification info vt st).notificationWindowEnd
        = st.notificationWindowEnd
      ∧ ∀ t : Nat, ((t ∈ (consumeNotification info vt st).attentionTabs)
          ↔ (t ∈ st.attentionTabs
              ∨ ∃ i, i < info.names.length ∧ t = i + 1
                  ∧ ((i + 1 : Nat) : Int) ≠ vt
                  ∧ matchesProject (info.names.getD i ("")) proj = true)) := by
  have hred : consumeNotification info vt st
      = { (List.range info.names.length).foldl (projectStep info vt proj)
            { st with notificationPending := false } with
          notificationProject := none } := by
    unfold consumeNotification
    rw [if_pos hpend, hproj]
    dsimp only
    rw [if_neg hne, if_pos hm]
  constructor
  · rw [hred]
    exact proj_foldl_windowEnd _ _ _ _ _
  · intro t
    have hmem : (t ∈ (consumeNotification info vt st).attentionTabs)
        ↔ (t ∈ st.attentionTabs
            ∨ ∃ i ∈ List.range info.names.length, t = i + 1
                ∧ projCond info vt proj i = true) := by
      rw [hred]
      exact proj_foldl_mem info vt proj _ _ t
    rw [hmem]
    constructor
    · rintro (hmem' | ⟨i, hi, rfl, hc⟩)
      · exact Or.inl hmem'
      · rw [projCond_true_iff] at hc
        exact Or.inr ⟨i, List.mem_range.mp hi, rfl, hc.1, hc.2⟩
    · rintro (hmem' | ⟨i, hi, rfl, hne', hmatch⟩)
      · exact Or.inl hmem'
      · refine Or.inr ⟨i, List.mem_range.mpr hi, rfl, ?_⟩
        rw [projCond_true_iff]
        exact ⟨hne', hmatch⟩

/-- C4 witness: a pending signal with hint `deploy` matches the background tab
named `Deploy (zsh)`, so the window end is left untouched at its sentinel. -/
theorem c4_witness :
    (consumeNotification (⟨[("Deploy (zsh)"), ("idle (zsh)")], 0, [], [], false, []⟩ :
        TabInfo) (-1)
      (⟨∅, 3, fun _ => none, fun _ => none, fun _ => none, true, some ("deploy"), -1⟩ :
        AttentionState)).notificationWindowEnd = -1 :=
  (c4_project_match _ (-1) _ ("deploy") rfl rfl (by decide) (by decide)).1

/-- C5 counterexample: with a signal already pending (hint `alpha`), a second
matching log line whose side-channel read would yield the fresh hint `beta`
leaves the pending flag and the stored hint exactly as they were before —
the hint does not become the one read for the second notification, refuting
the claim that the first signal is replaced by the second. -/
theorem c5_counterexample :
    (handleLogLine [("iterm")] (some (some ⟨some ("beta"), some 100⟩)) 101
          (("x iterm y").toList) ⟨true, some ("alpha")⟩).notificationPending = true
      ∧ (handleLogLine [("iterm")] (some (some ⟨some ("beta"), some 100⟩)) 101
          (("x iterm y").toList) ⟨true, some ("alpha")⟩).notificationProject
        = some ("alpha")
      ∧ ¬((handleLogLine [("iterm")] (some (some ⟨some ("beta"), some 100⟩)) 101
          (("x iterm y").toList) ⟨true, some ("alpha")⟩).notificationProject
        = some ("beta"))
      ∧ readNotificationEvent (some (some ⟨some ("beta"), some 100⟩)) 101
        = some ⟨some ("beta"), some 100⟩ := by
  refine ⟨?_, ?_, ?_, ?_⟩ <;> decide

/-- C5, amended: if a second matching notification arrives while a signal is
already pending, the second is silently ignored: the handler leaves the
signal state exactly as the first signal set it (pending stays true and the
correlation hint remains the first one). -/
theorem c5_second_signal_ignored (matchers : List String)
    (readResult : Option (Option EventData)) (now : Int) (line : List Char)
    (st : SignalState) (hp : st.notificationPending = true) :
    handleLogLine matchers readResult now line st = st := by
  unfold handleLogLine
  split_ifs <;> rfl

/-- C5 witness: the amended no-op behaviour at a concrete pending state. -/
theorem c5_witness :
    handleLogLine [("iterm")] none 0 (("x iterm").toList)
        ⟨true, some ("alpha")⟩ = ⟨true, some ("alpha")⟩ :=
  c5_second_signal_ignored _ _ _ _ _ rfl

/-- C6: calling `updateAttention` twice with frontmost true, the same snapshot
and no pending signal leaves the flagged set unchanged by the second call,
and each of the two calls advances `pollCount` by exactly 1. -/
theorem c6_idempotent (info : TabInfo) (st : AttentionState)
    (_hf : info.frontmost = true) (hp : st.notificationPending = false) :
    (updateAttention info (updateAttention info st)).attentionTabs
        = (updateAttention info st).attentionTabs
      ∧ (updateAttention info st).pollCount = st.pollCount + 1
      ∧ (updateAttention info (updateAttention info st)).pollCount
        = (updateAttention info st).pollCount + 1 := by
  refine ⟨?_, updateAttention_pollCount _ _, updateAttention_pollCount _ _⟩
  set st1 := updateAttention info st with hst1
  have hp1 : st1.notificationPending = false := by
    rw [hst1]
    unfold updateAttention
    dsimp only
    rw [foldl_tabStep_pending, consumeNotification_not_pending _ _ _ hp]
    exact hp
  have hprev : ∀ j, j < info.names.length →
      st1.prevPromptState (j + 1) = some (info.prompts.getD j false)
        ∧ st1.prevProcessingState (j + 1) = some (info.processing.getD j false) := by
    intro j hj
    rw [hst1]
    unfold updateAttention
    dsimp only
    exact ⟨foldl_range_prevPrompt_self _ _ _ _ _ _ hj,
      foldl_range_prevProc_self _ _ _ _ _ _ hj⟩
  have hvis : ∀ u : Nat, 1 ≤ u → u ≤ info.names.length
      → ((u : Nat) : Int) = visibleTabOf info → u ∉ st1.attentionTabs := by
    intro u hu1 hu2 hu3
    rw [hst1]
    exact visible_not_mem_update info st u hu1 hu2 hu3
  refine Finset.ext fun t => ?_
  have hred : (t ∈ (updateAttention info st1).attentionTabs)
      ↔ t ∈ ((List.range info.names.length).foldl
          (tabStep info (visibleTabOf info)
            (decide ((st1.pollCount : Int) ≤ st1.notificationWindowEnd)))
          st1).attentionTabs := by
    unfold updateAttention
    dsimp only
    rw [consumeNotification_not_pending _ _ _ hp1]
  rw [hred]
  rcases Nat.eq_zero_or_pos t with rfl | ht
  · exact foldl_tabStep_attn_ne _ _ _ _ _ _ (fun j hj => by omega)
  · rw [foldl_range_attn_mem _ _ _ _ _ _ ht]
    split_ifs with hle
    · unfold stepPost
      obtain ⟨hpp, hppc⟩ := hprev (t - 1) (by omega)
      have ht1 : t - 1 + 1 = t := by omega
      rw [ht1] at hpp hppc
      rw [hpp, hppc]
      simp only [Option.getD_some]
      constructor
      · rintro ⟨hne, hmem | ⟨-, -, hedge⟩⟩
        · exact hmem
        · rcases hedge with ⟨ha, hb⟩ | ⟨ha, hb⟩ <;> rw [ha] at hb <;>
            exact absurd hb (by simp)
      · intro hmem
        refine ⟨?_, Or.inl hmem⟩
        intro heq
        exact hvis t ht hle heq hmem
    · exact Iff.rfl

/-- C6 witness: the idempotence theorem applied at a concrete snapshot. -/
theorem c6_witness :
    (updateAttention (⟨[("a")], 1, [true], [false], true, []⟩ : TabInfo)
        (updateAttention (⟨[("a")], 1, [true], [false], true, []⟩ : TabInfo)
          (⟨{2}, 7, fun _ => none, fun _ => none, fun _ => none, false, none, 9⟩ :
            AttentionState))).attentionTabs
      = (updateAttention (⟨[("a")], 1, [true], [false], true, []⟩ : TabInfo)
          (⟨{2}, 7, fun _ => none, fun _ => none, fun _ => none, false, none, 9⟩ :
            AttentionState)).attentionTabs :=
  (c6_idempotent _ _ rfl rfl).1

/-- C7: classification is first-match-wins with specific tools ahead of
generic runtimes. For the tty-based classifier: foreground command lines
containing a `claude` indicator classify as `claude` even when a generic
`python3` interpreter path is present. For the title fallback: a process
name containing both `codex` and `python` classifies as `codex`, not
`python`. -/
theorem c7_classifier_order (cmds : List String) (pn : String)
    (h1 : containsSub (toLowerL (String.intercalate (" ") cmds).toList)
      (("claude").toList) = true)
    (_h2 : containsSub (toLowerL (String.intercalate (" ") cmds).toList)
      (("python3").toList) = true)
    (h3 : containsSub (stripDash (toLowerL pn.toList)) (("codex").toList) = true)
    (_h4 : containsSub (stripDash (toLowerL pn.toList)) (("python").toList) = true) :
    classifyCombined cmds = some ("claude")
      ∧ detectProgramFromName pn = ("codex") := by
  constructor
  · unfold classifyCombined
    rw [if_pos (by rw [h1]; rfl)]
  · unfold detectProgramFromName
    rw [if_pos h3]

/-- C7 witness: a python3 invocation of the claude agent's cli classifies as
`claude` by the tty rules. -/
theorem c7_witness :
    classifyCombined [("/usr/bin/python3 /Users/u/.local/share/claude/cli.py")]
      = some ("claude") :=
  (c7_classifier_order _ ("codex-python") (by decide) (by decide) (by decide)
    (by decide)).1

/-- C8: the publish step of `pollTabs` never reads the tab-name list out of
bounds: for every tracked (1-based) index, a tracked index at most the
number of tabs publishes that tab's rendered tuple (display name from the
parsed tab name, tty-derived program with title fallback, active and
attention flags), and a tracked index strictly greater than the tab count
publishes the explicit empty marker; in both cases the publish result is
defined (`isSome`). -/
theorem c8_publish_bounds (names : List String) (activeIndex : Int)
    (attn : Finset Nat) (ttyProgram : Option String) (idx : Nat)
    (h1 : 1 ≤ idx) :
    (publishTab names activeIndex attn ttyProgram idx).isSome = true
      ∧ (names.length < idx
          → publishTab names activeIndex attn ttyProgram idx
            = some PublishedState.empty)
      ∧ (idx ≤ names.length
          → ∃ nm, names[idx - 1]? = some nm
              ∧ publishTab names activeIndex attn ttyProgram idx
                = some (PublishedState.tab (parseTabName nm).displayName
                    (ttyProgram.getD (detectProgramFromName (parseTabName nm).process))
                    (decide ((idx : Int) = activeIndex)) (decide (idx ∈ attn)))) := by
  rcases Nat.lt_or_ge names.length idx with hgt | hle
  · have hpub : publishTab names activeIndex attn ttyProgram idx
        = some PublishedState.empty := by
      unfold publishTab
      rw [if_neg (by omega)]
    refine ⟨by rw [hpub]; rfl, fun _ => hpub, fun hle' => by omega⟩
  · have hidx : idx - 1 < names.length := by omega
    have hget : names[idx - 1]? = some names[idx - 1] :=
      List.getElem?_eq_getElem hidx
    have hpub : publishTab names activeIndex attn ttyProgram idx
        = some (PublishedState.tab (parseTabName names[idx - 1]).displayName
            (ttyProgram.getD
              (detectProgramFromName (parseTabName names[idx - 1]).process))
            (decide ((idx : Int) = activeIndex)) (decide (idx ∈ attn))) := by
      unfold publishTab
      rw [if_pos (by omega), hget]
    exact ⟨by rw [hpub]; rfl, fun hgt' => by omega,
      fun _ => ⟨names[idx - 1], hget, hpub⟩⟩

/-- C8 witness: a tracked index beyond the single-tab snapshot publishes the
empty marker. -/
theorem c8_witness :
    publishTab [("build (npm)")] 1 ∅ none 2 = some PublishedState.empty :=
  (c8_publish_bounds [("build (npm)")] 1 ∅ none 2 (by decide)).2.1 (by decide)

/-- C9: reading the correlation side channel yields no hint when the file is
missing, when its content is malformed, when the record lacks a truthy
project or timestamp, or when the timestamp is 5000 ms old or older; a hint
is returned exactly when the record is well-formed and strictly fresher than
5000 ms. The read is a total function: no error reaches the caller. -/
theorem c9_read_event (d : EventData) (now ts : Int) (p : String)
    (h1 : d.project = some p) (h2 : p ≠ (""))
    (h3 : d.timestamp = some ts) (h4 : ts ≠ 0) :
    readNotificationEvent none now = none
      ∧ readNotificationEvent (some none) now = none
      ∧ (∀ d2 : EventData, d2.project = none
          → readNotificationEvent (some (some d2)) now = none)
      ∧ (∀ d2 : EventData, d2.timestamp = none
          → readNotificationEvent (some (some d2)) now = none)
      ∧ (∀ d2 : EventData, d2.project = some ("")
          → readNotificationEvent (some (some d2)) now = none)
      ∧ (∀ d2 : EventData, d2.timestamp = some 0
          → readNotificationEvent (some (some d2)) now = none)
      ∧ (5000 ≤ now - ts → readNotificationEvent (some (some d)) now = none)
      ∧ (now - ts < 5000 → readNotificationEvent (some (some d)) now = some d) := by
  obtain ⟨dp, dts⟩ := d
  dsimp only at h1 h3
  subst h1
  subst h3
  refine ⟨rfl, rfl, ?_, ?_, ?_, ?_, ?_, ?_⟩
  · rintro ⟨p2, ts2⟩ hp2
    dsimp only at hp2
    subst hp2
    cases ts2 <;> rfl
  · rintro ⟨p2, ts2⟩ hts2
    dsimp only at hts2
    subst hts2
    cases p2 <;> rfl
  · rintro ⟨p2, ts2⟩ hp2
    dsimp only at hp2
    subst hp2
    cases ts2 with
    | none => rfl
    | some ts2' =>
      show (if ("" : String) = ("") then none
        else if ts2' = 0 then none
        else if now - ts2' < 5000 then some ⟨some (""), some ts2'⟩
        else none) = none
      rw [if_pos rfl]
  · rintro ⟨p2, ts2⟩ hts2
    dsimp only at hts2
    subst hts2
    cases p2 with
    | none => rfl
    | some p2' =>
      show (if p2' = ("") then none
        else if (0 : Int) = 0 then none
        else if now - 0 < 5000 then some ⟨some p2', some 0⟩
        else none) = none
      split_ifs <;> first | rfl | omega
  · intro hstale
    show (if p = ("") then none
      else if ts = 0 then none
      else if now - ts < 5000 then some (⟨some p, some ts⟩ : EventData)
      else none) = none
    rw [if_neg h2, if_neg h4, if_neg (by omega)]
  · intro hfresh
    show (if p = ("") then none
      else if ts = 0 then none
      else if now - ts < 5000 then some (⟨some p, some ts⟩ : EventData)
      else none) = some (⟨some p, some ts⟩ : EventData)
    rw [if_neg h2, if_neg h4, if_pos (by omega)]

/-- C9 witness: a well-formed record 2 ms old yields the hint. -/
theorem c9_witness :
    readNotificationEvent (some (some ⟨some ("p"), some 10⟩)) 12
      = some ⟨some ("p"), some 10⟩ :=
  (c9_read_event ⟨some ("p"), some 10⟩ 12 10 ("p") rfl (by decide) rfl
    (by decide)).2.2.2.2.2.2.2 (by decide)

/-- C10: for a key press on a tracked tab action, the handler removes exactly
that tab's index from the flagged set (the index itself is gone, every other
index is untouched) and the removal is computed before and independently of
the tab-switch command it then issues — the result does not depend on the
switch outcome, so the flag is cleared even if the switch fails. -/
theorem c10_keydown_clears (tracked : Option Nat) (attn : Finset Nat) (idx : Nat)
    (h : tracked = some idx) :
    (onKeyDownAttn tracked attn).1 = attn.erase idx
      ∧ idx ∉ (onKeyDownAttn tracked attn).1
      ∧ (∀ t : Nat, t ≠ idx
          → ((t ∈ (onKeyDownAttn tracked attn).1) ↔ t ∈ attn))
      ∧ (onKeyDownAttn tracked attn).2 = some idx := by
  subst h
  refine ⟨rfl, Finset.not_mem_erase _ _, ?_, rfl⟩
  intro t ht
  show t ∈ attn.erase idx ↔ t ∈ attn
  rw [Finset.mem_erase]
  exact ⟨fun hx => hx.2, fun hx => ⟨ht, hx⟩⟩

/-- C10 witness: pressing the key of the action tracking tab 3 erases 3 from
the flagged set. -/
theorem c10_witness :
    (onKeyDownAttn (some 3) ({3, 5} : Finset Nat)).1
      = ({3, 5} : Finset Nat).erase 3 :=
  (c10_keydown_clears (some 3) ({3, 5} : Finset Nat) 3 rfl).1

end ITermTabs
